import Mathlib

/-!
A shallow embedding of `draft_agent.py` from the fantasy-draft-assistant
repository (src/skills/fantasy-draft-assistant/scripts/draft_agent.py),
together with proofs about its valuation pipeline.

Modelling conventions:
* Python floats are modelled as exact rationals; `round(x, 1)` is modelled
  by `pyRound1`, which implements round-half-to-even on rationals.
* Python dict values appearing in stat records are modelled by `PyVal`
  (a number, a string, or a nested dict); stat records are association
  lists with first-match lookup (keys are unique in practice).
* `float(s)` on strings is modelled by `parseFloat?`, covering the plain
  signed decimal-literal format (the only format occurring in this program);
  a parse failure models the `ValueError` branch.
* Functions that can raise an uncaught Python exception (an `AttributeError`
  from calling `.lstrip` or `.split` on a non-string) return an `Option`,
  with `none` modelling the raised exception.
-/

/-- A Python value stored in a stat record: a number, a string, or a nested dict. -/
inductive PyVal where
  | num (q : ℚ)
  | str (s : String)
  | dict (fields : List (String × PyVal))

instance : Inhabited PyVal := ⟨.str ""⟩

/-- A stat record: a Python dict with string keys, as an association list. -/
abbrev Stats := List (String × PyVal)

/-- Python `d.get(k)`, with `None` (absent key) modelled as `none`. -/
def Stats.get? (stats : Stats) (k : String) : Option PyVal :=
  (stats.find? (fun kv => kv.1 == k)).map (fun kv => kv.2)

/-- Python `d.get(k, default)`. -/
def Stats.getD (stats : Stats) (k : String) (d : PyVal) : PyVal :=
  (Stats.get? stats k).getD d

/-- Python `d[k] = v`: replace the value when the key is present, else append. -/
def Stats.set (stats : Stats) (k : String) (v : PyVal) : Stats :=
  if stats.any (fun kv => kv.1 == k) then
    stats.map (fun kv => if kv.1 == k then (kv.1, v) else kv)
  else stats ++ [(k, v)]

/-- Python truthiness of a `PyVal`: zero, the empty string and the empty
dict are falsy. -/
def pyTruthy : PyVal → Bool
  | .num q => q != 0
  | .str s => !s.isEmpty
  | .dict l => !l.isEmpty

/-- Python truthiness of a possibly-missing value (`None` is falsy). -/
def pyTruthyOpt : Option PyVal → Bool
  | some v => pyTruthy v
  | none => false

/-- Python `x == "lit"` for a possibly-missing dict value: true only for an
equal string; numbers, dicts and `None` never compare equal to a string. -/
def pyEqStr : Option PyVal → String → Bool
  | some (.str s), t => s == t
  | _, _ => false

/-- The numeric value of a list of decimal digit characters. -/
def natOfDigits (cs : List Char) : ℕ :=
  cs.foldl (fun n c => 10 * n + (c.toNat - 48)) 0

/-- Python `float(s)` on the plain signed decimal-literal formats used by this
program, as an exact rational; `none` models the `ValueError` raised on any
other string. -/
def parseFloat? (s : String) : Option ℚ :=
  let signAndDigits : ℚ × List Char :=
    match s.data with
    | '-' :: rest => ((-1 : ℚ), rest)
    | '+' :: rest => ((1 : ℚ), rest)
    | cs => ((1 : ℚ), cs)
  let sign := signAndDigits.1
  let cs := signAndDigits.2
  let intPart := cs.takeWhile (fun c => c.isDigit)
  let rest := cs.drop intPart.length
  match rest with
  | [] => if intPart.isEmpty then none else some (sign * natOfDigits intPart)
  | '.' :: frac =>
    if frac.all (fun c => c.isDigit) && (!intPart.isEmpty || !frac.isEmpty) then
      some (sign * ((natOfDigits intPart : ℚ) + (natOfDigits frac : ℚ) / (10 : ℚ) ^ frac.length))
    else none
  | _ => none

/-- Python `float(v)` on a stored value: numbers convert, strings parse,
dicts raise `TypeError` (modelled as `none`). -/
def pyFloat? : PyVal → Option ℚ
  | .num q => some q
  | .str s => parseFloat? s
  | .dict _ => none

/-- `_safe_float` (draft_agent.py lines 674-679): convert to float, default 0. -/
def safe_float (v : PyVal) : ℚ := (pyFloat? v).getD 0

/-- The `try: x = float(v) / except (ValueError, TypeError): x = fallback`
pattern used for `era` and `whip` in `compute_mlb_pitching_value`. -/
def tryPyFloat (v : PyVal) (fallback : ℚ) : ℚ := (pyFloat? v).getD fallback

/-- Round a rational to the nearest integer, ties to even: the behaviour of
Python `round` (banker's rounding), exact on rationals. -/
def roundHalfEven (q : ℚ) : ℤ :=
  let f := ⌊q⌋
  if q - f < 1/2 then f
  else if (1 : ℚ)/2 < q - f then f + 1
  else if f % 2 = 0 then f else f + 1

/-- Python `round(x, 1)` on rationals. -/
def pyRound1 (q : ℚ) : ℚ := (roundHalfEven (q * 10) : ℚ) / 10

/-- Python `f-string` formatting with `.0f` precision, for the values it is
applied to in this program. -/
def fmtF0 (q : ℚ) : String := toString (roundHalfEven q)

/-- Python `f-string` formatting with `.1f` precision, for the values it is
applied to in this program. -/
def fmtF1 (q : ℚ) : String :=
  let n := roundHalfEven (q * 10)
  (if n < 0 then "-" else "") ++ toString (n.natAbs / 10) ++ "." ++ toString (n.natAbs % 10)

/-- Python `s.lstrip(".")`: drop leading dot characters. -/
def lstripDot (s : String) : String := String.mk (s.data.dropWhile (fun c => c == '.'))

/-- The batting-average parse `float(s.lstrip(".") or emptyDefault) / 1000`,
where `onError` is the value assigned by the `except (ValueError, TypeError)`
handler (0.250 in `compute_mlb_hitting_value`, 0.0 in `identify_sleeper`). -/
def pyParseAvg (emptyDefault : String) (onError : ℚ) (s : String) : ℚ :=
  let stripped := lstripDot s
  let arg := if stripped.isEmpty then emptyDefault else stripped
  match parseFloat? arg with
  | some q => q / 1000
  | none => onError

/-- `NBA_POINTS_WEIGHTS` (draft_agent.py lines 178-186), in source order. -/
def NBA_POINTS_WEIGHTS : List (String × ℚ) :=
  [("pts", 1), ("reb", 6/5), ("ast", 3/2), ("stl", 3), ("blk", 3), ("fg3m", 1/2), ("tov", -1)]

/-- `MLB_HITTING_WEIGHTS` (draft_agent.py lines 192-198). -/
def MLB_HITTING_WEIGHTS : List (String × ℚ) :=
  [("runs", 1), ("hr", 4), ("rbi", 1), ("sb", 2), ("avg_bonus", 5)]

/-- `MLB_PITCHING_WEIGHTS` (draft_agent.py lines 200-206). -/
def MLB_PITCHING_WEIGHTS : List (String × ℚ) :=
  [("wins", 5), ("so", 1), ("saves", 5), ("era_bonus", -2), ("whip_bonus", -3)]

/-- Python `weights.get(k, 0)` on a weight table (also used for the direct
index `weights[k]`, whose keys are always present). -/
def wlookup (w : List (String × ℚ)) (k : String) : ℚ :=
  ((w.find? (fun kv => kv.1 == k)).map (fun kv => kv.2)).getD 0

/-- `compute_nba_points_value` (draft_agent.py lines 255-262). -/
def compute_nba_points_value (stats : Stats) : ℚ :=
  if stats.isEmpty then 0
  else
    pyRound1 (NBA_POINTS_WEIGHTS.foldl
      (fun total kw => total + safe_float (Stats.getD stats kw.1 (.num 0)) * kw.2) 0)

/-- `compute_mlb_hitting_value` (draft_agent.py lines 265-281). The result is
`none` when the stored `"avg"` value is not a string: `.lstrip` then raises an
`AttributeError`, which the `except (ValueError, TypeError)` handler does not
catch. -/
def compute_mlb_hitting_value (stats : Stats) : Option ℚ :=
  if stats.isEmpty then some 0
  else
    let total := ["runs", "hr", "rbi", "sb"].foldl
      (fun total k => total + safe_float (Stats.getD stats k (.num 0)) * wlookup MLB_HITTING_WEIGHTS k) 0
    match Stats.getD stats "avg" (.str ".250") with
    | .str s =>
      let avg := pyParseAvg "250" (1/4) s
      let total :=
        if avg > 27/100 then total + (avg - 27/100) * 1000 * wlookup MLB_HITTING_WEIGHTS "avg_bonus"
        else total
      some (pyRound1 total)
    | _ => none

/-- `compute_mlb_pitching_value` (draft_agent.py lines 284-309). Malformed
`era` and `whip` values fall back to 3.50 and 1.20 inside `tryPyFloat`. -/
def compute_mlb_pitching_value (stats : Stats) : ℚ :=
  if stats.isEmpty then 0
  else
    let total := safe_float (Stats.getD stats "wins" (.num 0)) * wlookup MLB_PITCHING_WEIGHTS "wins"
      + safe_float (Stats.getD stats "so" (.num 0)) * wlookup MLB_PITCHING_WEIGHTS "so"
      + safe_float (Stats.getD stats "saves" (.num 0)) * wlookup MLB_PITCHING_WEIGHTS "saves"
    let era := tryPyFloat (Stats.getD stats "era" (.str "3.50")) (7/2)
    let total :=
      if era > 7/2 then total + (era - 7/2) / (1/2) * wlookup MLB_PITCHING_WEIGHTS "era_bonus"
      else total
    let whip := tryPyFloat (Stats.getD stats "whip" (.str "1.20")) (6/5)
    let total :=
      if whip > 6/5 then total + (whip - 6/5) / (1/10) * wlookup MLB_PITCHING_WEIGHTS "whip_bonus"
      else total
    pyRound1 total

/-- `compute_recent_trend` (draft_agent.py lines 312-326). -/
def compute_recent_trend (season_stats : Stats) (game_log : List Stats) : ℚ :=
  if game_log.isEmpty || season_stats.isEmpty then 0
  else
    let season_ppg := safe_float (Stats.getD season_stats "pts" (.num 0))
    if season_ppg = 0 then 0
    else
      let recent_ppg :=
        (game_log.map (fun g => safe_float (Stats.getD g "pts" (.num 0)))).sum / (game_log.length : ℚ)
      pyRound1 ((recent_ppg - season_ppg) / season_ppg * 100)

/-- The interpolation `str(v)` of the raw `stats.get("avg", "")` value into the
spring-training reason string. Only string values can reach this point in
`identify_sleeper` (a non-string `"avg"` raises in the preceding parse), so
the non-string arms are unreachable there. -/
def pyStrOf : PyVal → String
  | .str s => s
  | .num q => fmtF1 q
  | .dict _ => ""

/-- `identify_sleeper` (draft_agent.py lines 329-359). The result is `none`
when the record is tagged `spring_training` and its `"avg"` value is not a
string (uncaught `AttributeError` from `.lstrip`). -/
def identify_sleeper (stats : Stats) (trend : ℚ) (fantasy_value : ℚ) (position : String) :
    Option (Bool × String) :=
  if trend ≥ 15 ∧ fantasy_value > 20 then
    some (true, "Trending +" ++ fmtF0 trend ++ "% over last 10 games")
  else
    let blk := safe_float (Stats.getD stats "blk" (.num 0))
    let stl := safe_float (Stats.getD stats "stl" (.num 0))
    if (position = "C" ∨ position = "PF") ∧ blk ≥ 2 ∧ trend ≥ 5 then
      some (true, "Elite blocks (" ++ fmtF1 blk ++ "/g) with upward trend")
    else if (position = "PG" ∨ position = "SG") ∧ stl ≥ 9/5 ∧ trend ≥ 5 then
      some (true, "Elite steals (" ++ fmtF1 stl ++ "/g) with upward trend")
    else if pyEqStr (Stats.get? stats "type") "spring_training" then
      match Stats.getD stats "avg" (.str ".000") with
      | .str s =>
        let avg := pyParseAvg "0" 0 s
        if avg ≥ 7/20 ∧ safe_float (Stats.getD stats "games" (.num 0)) ≥ 5 then
          some (true, "Spring training breakout (" ++ pyStrOf (Stats.getD stats "avg" (.str "")) ++ " AVG)")
        else some (false, "")
      | _ => none
    else some (false, "")

/-- `compute_vor` (draft_agent.py lines 362-369). -/
def compute_vor (player_value : ℚ) (position : String)
    (replacement_values : List (String × ℚ)) : ℚ :=
  let replacement :=
    (((replacement_values.find? (fun kv => kv.1 == position)).map (fun kv => kv.2)).getD 0)
  pyRound1 (player_value - replacement)

/-- The replacement-baseline computation for one position, factored out of
`build_draft_board` (draft_agent.py lines 528-535). `sorted(values, reverse=True)`
is the stable descending sort, i.e. `mergeSort` with the flipped comparison;
`sorted_vals[-1]` is the last element (only evaluated on nonempty lists). -/
def replacement_baseline (values : List ℚ) : ℚ :=
  let sorted_vals := values.mergeSort (fun a b => b ≤ a)
  if sorted_vals.length ≥ 12 then ((sorted_vals.drop 7).take 5).sum / 5
  else if sorted_vals.length ≥ 3 then sorted_vals.getLastD 0
  else 0

/-- The `RankedPlayer` dataclass (draft_agent.py lines 239-252). `team`,
`position` and `live_note` store whatever raw value the stat dict held. -/
structure RankedPlayer where
  name : String
  team : PyVal
  position : PyVal
  fantasy_value : ℚ
  vor : ℚ
  season_stats : Stats
  recent_trend : ℚ
  live_note : PyVal
  is_sleeper : Bool
  sleeper_reason : String
  recommendation : String

/-- The external collaborators consumed by `build_draft_board`: the four
stat-provider functions imported from external_stats.py, and `hot_players`,
the result of `live_context.extract_hot_players` on the polled games (the
empty map when `live_context` is `None` or polling fails). -/
structure DraftEnv where
  get_nba_player_season_stats : String → Stats
  get_nba_player_game_log : PyVal → ℕ → List Stats
  get_mlb_player_stats : String → String → Stats
  get_mlb_spring_training_stats : String → Stats
  hot_players : List (String × Stats)

/-- `NBA_DEFAULT_POOL` (draft_agent.py lines 377-388). -/
def NBA_DEFAULT_POOL : List String :=
  ["Nikola Jokic", "Luka Doncic", "Shai Gilgeous-Alexander",
   "Jayson Tatum", "Anthony Edwards", "Victor Wembanyama",
   "Tyrese Haliburton", "Domantas Sabonis", "LeBron James",
   "Kevin Durant", "Damian Lillard", "Devin Booker",
   "Anthony Davis", "Trae Young", "Bam Adebayo",
   "De" ++ String.singleton (Char.ofNat 39) ++ "Aaron Fox", "Donovan Mitchell", "Jalen Brunson",
   "Jaren Jackson Jr", "Chet Holmgren", "Paolo Banchero",
   "Scottie Barnes", "Darius Garland", "Tyler Herro",
   "Lauri Markkanen", "Franz Wagner", "Cade Cunningham",
   "Tyrese Maxey", "Desmond Bane", "Dejounte Murray"]

/-- `MLB_DEFAULT_POOL` (draft_agent.py lines 390-401). -/
def MLB_DEFAULT_POOL : List String :=
  ["Shohei Ohtani", "Aaron Judge", "Ronald Acuna Jr",
   "Mookie Betts", "Freddie Freeman", "Trea Turner",
   "Juan Soto", "Corey Seager", "Bobby Witt Jr",
   "Julio Rodriguez", "Corbin Carroll", "Gunnar Henderson",
   "Elly De La Cruz", "Marcus Semien", "Vladimir Guerrero Jr",
   "Spencer Strider", "Zack Wheeler", "Gerrit Cole",
   "Corbin Burnes", "Yoshinobu Yamamoto", "Dylan Cease",
   "Logan Webb", "Bryce Harper", "Matt Olson",
   "Pete Alonso", "Bo Bichette", "Jose Ramirez",
   "Kyle Tucker", "Adley Rutschman", "Jackson Chourio"]

/-- The expression `position.split("/")[0] if position else "UTIL"` (used at
draft_agent.py lines 492, 539 and 545). A truthy non-string raises an
`AttributeError` from `.split` (modelled as `none`); falsy values select
`"UTIL"`. -/
def posKey? : PyVal → Option String
  | .str s => if s.isEmpty then some "UTIL" else some ((s.splitOn "/").headD s)
  | .num q => if q = 0 then some "UTIL" else none
  | .dict l => if l.isEmpty then some "UTIL" else none

/-- The `position` argument as seen by the membership tests inside
`identify_sleeper`: a non-string value never equals any of the position
strings, so it behaves exactly like the empty string there. -/
def pyPosArg : PyVal → String
  | .str s => s
  | _ => ""

/-- One fully valued loop iteration of `build_draft_board`: the constructed
`RankedPlayer` together with the `pos_key` computed at line 492 and the raw
(pre-adjustment) `value` appended to `replacement_values` at line 493. -/
structure LoopEntry where
  rp : RankedPlayer
  pos_key : String
  raw_value : ℚ

/-- Lines 492-524 of draft_agent.py: the sport-independent tail of the loop
body, from the `pos_key` computation to the `RankedPlayer` construction.
`none` models an uncaught exception. -/
def finishCandidate (env : DraftEnv) (player_name : String) (stats : Stats)
    (value : ℚ) (trend : ℚ) : Option LoopEntry :=
  let position := Stats.getD stats "position" (.str "")
  match posKey? position with
  | none => none
  | some pos_key =>
    let hp? := env.hot_players.find? (fun kv => kv.1 == player_name)
    let live_note : PyVal :=
      match hp? with
      | some hp => Stats.getD hp.2 "note" (.str "")
      | none => .str ""
    let live_bonus : ℚ :=
      match hp? with
      | some _ => 3
      | none => 0
    match identify_sleeper stats trend value (pyPosArg position) with
    | none => none
    | some sl =>
      let adjusted_value := value + live_bonus
      let adjusted_value := if trend > 10 then adjusted_value + trend * (1/10) else adjusted_value
      some
        { rp :=
            { name := player_name
              team := Stats.getD stats "team" (.str "")
              position := position
              fantasy_value := adjusted_value
              vor := 0
              season_stats := stats
              recent_trend := trend
              live_note := live_note
              is_sleeper := sl.1
              sleeper_reason := sl.2
              recommendation := "" }
          pos_key := pos_key
          raw_value := value }

/-- The NBA arm of the loop (draft_agent.py lines 449-467). The outer `none`
models an uncaught exception; `some none` models `continue` (player skipped). -/
def processNBA (env : DraftEnv) (scoring_format : String) (player_name : String) :
    Option (Option LoopEntry) :=
  let stats := env.get_nba_player_season_stats player_name
  if stats.isEmpty then some none
  else
    let value :=
      if scoring_format = "points" then compute_nba_points_value stats
      else compute_nba_points_value stats
    let trend :=
      match Stats.get? stats "player_id" with
      | some pid =>
        if pyTruthy pid then
          compute_recent_trend stats (env.get_nba_player_game_log pid 10)
        else 0
      | none => 0
    (finishCandidate env player_name stats value trend).map some

/-- The spring-training attachment and loop tail for MLB (draft_agent.py
lines 480-486 followed by lines 492-524). -/
def mlbFinish (env : DraftEnv) (player_name : String) (stats : Stats) (value : ℚ) :
    Option LoopEntry :=
  let spring := env.get_mlb_spring_training_stats player_name
  let stats :=
    if !spring.isEmpty && pyTruthyOpt (Stats.get? spring "games") then
      Stats.set stats "spring_training" (.dict spring)
    else stats
  finishCandidate env player_name stats value 0

/-- The MLB arm of the loop (draft_agent.py lines 469-486). -/
def processMLB (env : DraftEnv) (player_name : String) : Option (Option LoopEntry) :=
  let stats := env.get_mlb_player_stats player_name "hitting"
  if stats.isEmpty then
    let stats := env.get_mlb_player_stats player_name "pitching"
    if stats.isEmpty then some none
    else (mlbFinish env player_name stats (compute_mlb_pitching_value stats)).map some
  else
    match compute_mlb_hitting_value stats with
    | none => none
    | some value => (mlbFinish env player_name stats value).map some

/-- One iteration of the candidate loop, dispatching on the sport
(draft_agent.py lines 446-489); an unsupported sport key means `continue`. -/
def processCandidate (env : DraftEnv) (sport scoring_format player_name : String) :
    Option (Option LoopEntry) :=
  if sport = "nba" then processNBA env scoring_format player_name
  else if sport = "mlb" then processMLB env player_name
  else some none

/-- The candidate loop over the available pool, in pool order. -/
def valueCandidates (env : DraftEnv) (sport scoring_format : String) :
    List String → Option (List LoopEntry)
  | [] => some []
  | player_name :: rest =>
    match processCandidate env sport scoring_format player_name with
    | none => none
    | some none => valueCandidates env sport scoring_format rest
    | some (some v) => (valueCandidates env sport scoring_format rest).map (fun vs => v :: vs)

/-- `replacement_values.setdefault(pos_key, []).append(value)` on an
insertion-ordered dict of lists (draft_agent.py line 493). -/
def setdefaultAppend (m : List (String × List ℚ)) (k : String) (v : ℚ) :
    List (String × List ℚ) :=
  if m.any (fun kv => kv.1 == k) then
    m.map (fun kv => if kv.1 == k then (kv.1, kv.2 ++ [v]) else kv)
  else m ++ [(k, [v])]

/-- The `replacement_values` dict accumulated over the loop. -/
def replacementLists (vs : List LoopEntry) : List (String × List ℚ) :=
  vs.foldl (fun m v => setdefaultAppend m v.pos_key v.raw_value) []

/-- The `repl` dict of per-position baselines (draft_agent.py lines 527-535). -/
def replacementBaselines (vs : List LoopEntry) : List (String × ℚ) :=
  (replacementLists vs).map (fun kv => (kv.1, replacement_baseline kv.2))

/-- The VOR-assignment pass (draft_agent.py lines 538-540). `pos_key` is
recomputed there from `rp.position` by the same pure expression evaluated in
the loop at line 492, so it equals the stored `LoopEntry.pos_key`. -/
def applyVOR (repl : List (String × ℚ)) (vs : List LoopEntry) : List LoopEntry :=
  vs.map (fun v =>
    { v with rp := { v.rp with vor := compute_vor v.rp.fantasy_value v.pos_key repl } })

/-- `_count_roster_positions` (draft_agent.py lines 561-565): the stub always
returns the empty dict. -/
def count_roster_positions (roster_names : List String) (sport : String) :
    List (String × ℕ) :=
  []

/-- The positional-need pass (draft_agent.py lines 543-548); as at line 545,
`pos_key` is the same pure expression as in the loop. -/
def applyNeedBonus (roster : List String) (sport : String) (vs : List LoopEntry) :
    List LoopEntry :=
  let roster_positions := count_roster_positions roster sport
  vs.map (fun v =>
    if (((roster_positions.find? (fun kv => kv.1 == v.pos_key)).map (fun kv => kv.2)).getD 0) = 0 then
      { v with rp :=
          { v.rp with
            vor := v.rp.vor + 2
            recommendation := "fills " ++ v.pos_key ++ " need" } }
    else v)

/-- `ranked.sort(key=lambda p: p.vor, reverse=True)` (draft_agent.py line 551):
Python performs the stable descending sort by key, which is `mergeSort` with
the flipped comparison. -/
def sortByVorDesc (l : List RankedPlayer) : List RankedPlayer :=
  l.mergeSort (fun a b => b.vor ≤ a.vor)

/-- Lines 554-555: give the top pick a recommendation if it has none. -/
def assignTopPick : List RankedPlayer → List RankedPlayer
  | [] => []
  | top :: rest =>
    if top.recommendation = "" then
      { top with recommendation := "BEST AVAILABLE" } :: rest
    else top :: rest

/-- Lines 424-439: the pool for the sport, minus case-insensitively drafted
names. -/
def availablePool (sport : String) (drafted_names : List String) : List String :=
  let drafted_lower := drafted_names.map (fun n => n.toLower)
  let pool := if sport = "nba" then NBA_DEFAULT_POOL else MLB_DEFAULT_POOL
  pool.filter (fun player_name => !(drafted_lower.contains player_name.toLower))

/-- `build_draft_board` up to (but not including) the final sort: the valued,
VOR-assigned, need-boosted list in pool-iteration (insertion) order. -/
def preSortBoard (env : DraftEnv) (sport scoring_format : String)
    (drafted_names roster : List String) : Option (List RankedPlayer) :=
  (valueCandidates env sport scoring_format (availablePool sport drafted_names)).map
    (fun vs =>
      (applyNeedBonus roster sport (applyVOR (replacementBaselines vs) vs)).map
        (fun v => v.rp))

/-- `build_draft_board` (draft_agent.py lines 404-558). `none` models an
uncaught exception escaping the call. -/
def build_draft_board (env : DraftEnv) (sport scoring_format : String)
    (drafted_names roster : List String) : Option (List RankedPlayer) :=
  (preSortBoard env sport scoring_format drafted_names roster).map
    (fun ranked => assignTopPick (sortByVorDesc ranked))

/-! ### Helper lemmas -/

theorem Stats.get?_nil (k : String) : Stats.get? [] k = none := rfl

theorem Stats.getD_eq_of_get? {stats : Stats} {k : String} {v : PyVal} (d : PyVal)
    (h : Stats.get? stats k = some v) : Stats.getD stats k d = v := by
  simp [Stats.getD, h]

theorem safe_float_num (q : ℚ) : safe_float (.num q) = q := rfl

theorem ne_nil_isEmpty_eq_false {α : Type} {l : List α} (h : l ≠ []) :
    l.isEmpty = false := by
  cases l with
  | nil => exact absurd rfl h
  | cons hd tl => rfl

/-! ### C6: the NBA points-league scoring model -/

/-- C6: for every stat record in which all seven weighted fields are present
and valid numbers, `compute_nba_points_value` returns the weighted linear sum
pts·1 + reb·1.2 + ast·1.5 + stl·3 + blk·3 + fg3m·0.5 + tov·(−1), rounded to
one decimal; in particular pts=25, reb=7, ast=8, stl=1.5, blk=0.5, fg3m=2,
tov=3 yields 49.4. -/
theorem claim_nba_points_value :
    (∀ (stats : Stats) (p r a s b f t : ℚ),
      Stats.get? stats "pts" = some (.num p) →
      Stats.get? stats "reb" = some (.num r) →
      Stats.get? stats "ast" = some (.num a) →
      Stats.get? stats "stl" = some (.num s) →
      Stats.get? stats "blk" = some (.num b) →
      Stats.get? stats "fg3m" = some (.num f) →
      Stats.get? stats "tov" = some (.num t) →
      compute_nba_points_value stats
        = pyRound1 (p * 1 + r * (6/5) + a * (3/2) + s * 3 + b * 3 + f * (1/2) + t * (-1))) ∧
    compute_nba_points_value
      [("pts", .num 25), ("reb", .num 7), ("ast", .num 8), ("stl", .num (3/2)),
       ("blk", .num (1/2)), ("fg3m", .num 2), ("tov", .num 3)] = 247/5 := by
  constructor
  · intro stats p r a s b f t hp hr ha hs hb hf ht
    have hne : stats.isEmpty = false := by
      cases stats with
      | nil => rw [Stats.get?_nil] at hp; cases hp
      | cons hd tl => rfl
    rw [compute_nba_points_value, hne]
    simp only [Bool.false_eq_true, if_false, NBA_POINTS_WEIGHTS, List.foldl_cons, List.foldl_nil,
      Stats.getD_eq_of_get? _ hp, Stats.getD_eq_of_get? _ hr, Stats.getD_eq_of_get? _ ha,
      Stats.getD_eq_of_get? _ hs, Stats.getD_eq_of_get? _ hb, Stats.getD_eq_of_get? _ hf,
      Stats.getD_eq_of_get? _ ht, safe_float_num]
    ring_nf
  · with_unfolding_all rfl

/-! ### C4: the MLB hitting scoring model -/

/-- C4: for every non-empty hitter record whose stored average is a string,
`compute_mlb_hitting_value` returns runs·1 + hr·4 + rbi·1 + sb·2 plus the
bonus (avg − .270)·1000·5 exactly when the parsed average exceeds .270,
rounded to one decimal; the average parser accepts the leading-dot format
(".300" parses to .300) and any malformed average string defaults to .250
instead of failing; the example record with runs=100, hr=40, rbi=110, sb=10,
avg=".300" yields 540.0. -/
theorem claim_mlb_hitting_value :
    (∀ (stats : Stats) (runs hr rbi sb : ℚ) (s : String),
      safe_float (Stats.getD stats "runs" (.num 0)) = runs →
      safe_float (Stats.getD stats "hr" (.num 0)) = hr →
      safe_float (Stats.getD stats "rbi" (.num 0)) = rbi →
      safe_float (Stats.getD stats "sb" (.num 0)) = sb →
      Stats.getD stats "avg" (.str ".250") = .str s →
      stats ≠ [] →
      compute_mlb_hitting_value stats
        = some (pyRound1 (runs * 1 + hr * 4 + rbi * 1 + sb * 2 +
            (if pyParseAvg "250" (1/4) s > 27/100 then
              (pyParseAvg "250" (1/4) s - 27/100) * 1000 * 5 else 0)))) ∧
    pyParseAvg "250" (1/4) ".300" = 3/10 ∧
    (∀ s : String,
      parseFloat? (if (lstripDot s).isEmpty then "250" else lstripDot s) = none →
      pyParseAvg "250" (1/4) s = 1/4) ∧
    compute_mlb_hitting_value
      [("runs", .num 100), ("hr", .num 40), ("rbi", .num 110), ("sb", .num 10),
       ("avg", .str ".300")] = some 540 := by
  refine ⟨?_, by with_unfolding_all rfl, ?_, by with_unfolding_all rfl⟩
  · intro stats runs hr rbi sb s hruns hhr hrbi hsb havg hne
    rw [compute_mlb_hitting_value, ne_nil_isEmpty_eq_false hne]
    simp only [Bool.false_eq_true, if_false, List.foldl_cons, List.foldl_nil, havg,
      hruns, hhr, hrbi, hsb]
    have w1 : wlookup MLB_HITTING_WEIGHTS "runs" = 1 := rfl
    have w2 : wlookup MLB_HITTING_WEIGHTS "hr" = 4 := rfl
    have w3 : wlookup MLB_HITTING_WEIGHTS "rbi" = 1 := rfl
    have w4 : wlookup MLB_HITTING_WEIGHTS "sb" = 2 := rfl
    have w5 : wlookup MLB_HITTING_WEIGHTS "avg_bonus" = 5 := rfl
    rw [w1, w2, w3, w4, w5]
    split_ifs with hb
    · exact congrArg (fun x => some (pyRound1 x)) (by ring)
    · exact congrArg (fun x => some (pyRound1 x)) (by ring)
  · intro s hnone
    simp only [pyParseAvg, hnone]

/-! ### C5: the MLB pitching scoring model -/

/-- C5: for every non-empty pitcher record, `compute_mlb_pitching_value`
returns wins·5 + so·1 + saves·5, minus (era − 3.50)/0.50·2 exactly when the
parsed ERA exceeds 3.50 and minus (whip − 1.20)/0.10·3 exactly when the
parsed WHIP exceeds 1.20, rounded to one decimal; malformed ERA and WHIP
strings default to 3.50 and 1.20 (no penalty); the two example records yield
190.0 and 75.0. -/
theorem claim_mlb_pitching_value :
    (∀ (stats : Stats) (wins so saves era whip : ℚ),
      safe_float (Stats.getD stats "wins" (.num 0)) = wins →
      safe_float (Stats.getD stats "so" (.num 0)) = so →
      safe_float (Stats.getD stats "saves" (.num 0)) = saves →
      tryPyFloat (Stats.getD stats "era" (.str "3.50")) (7/2) = era →
      tryPyFloat (Stats.getD stats "whip" (.str "1.20")) (6/5) = whip →
      stats ≠ [] →
      compute_mlb_pitching_value stats
        = pyRound1 (wins * 5 + so * 1 + saves * 5
            - (if era > 7/2 then (era - 7/2) / (1/2) * 2 else 0)
            - (if whip > 6/5 then (whip - 6/5) / (1/10) * 3 else 0))) ∧
    (∀ s : String, parseFloat? s = none → tryPyFloat (.str s) (7/2) = 7/2) ∧
    (∀ s : String, parseFloat? s = none → tryPyFloat (.str s) (6/5) = 6/5) ∧
    compute_mlb_pitching_value
      [("wins", .num 10), ("so", .num 150), ("saves", .num 0),
       ("era", .str "4.50"), ("whip", .str "1.40")] = 190 ∧
    compute_mlb_pitching_value
      [("wins", .num 5), ("so", .num 50), ("saves", .num 0),
       ("era", .str "N/A"), ("whip", .str "bad")] = 75 := by
  refine ⟨?_, ?_, ?_, by with_unfolding_all rfl, by with_unfolding_all rfl⟩
  · intro stats wins so saves era whip hw hso hsv hera hwhip hne
    rw [compute_mlb_pitching_value, ne_nil_isEmpty_eq_false hne]
    simp only [Bool.false_eq_true, if_false, hw, hso, hsv, hera, hwhip]
    have w1 : wlookup MLB_PITCHING_WEIGHTS "wins" = 5 := rfl
    have w2 : wlookup MLB_PITCHING_WEIGHTS "so" = 1 := rfl
    have w3 : wlookup MLB_PITCHING_WEIGHTS "saves" = 5 := rfl
    have w4 : wlookup MLB_PITCHING_WEIGHTS "era_bonus" = -2 := rfl
    have w5 : wlookup MLB_PITCHING_WEIGHTS "whip_bonus" = -3 := rfl
    rw [w1, w2, w3, w4, w5]
    split_ifs with h1 h2 h2
    · exact congrArg pyRound1 (by ring)
    · exact congrArg pyRound1 (by ring)
    · exact congrArg pyRound1 (by ring)
    · exact congrArg pyRound1 (by ring)
  · intro s h
    simp [tryPyFloat, pyFloat?, h]
  · intro s h
    simp [tryPyFloat, pyFloat?, h]

/-! ### C7: the recent-trend computation never divides by zero -/

/-- C7: `compute_recent_trend` returns 0 whenever either input is empty or
the season points-per-game average is zero, so the division by the season
average is never performed with a zero divisor; on every other input it
returns (recent average − season average) / season average · 100, rounded to
one decimal. -/
theorem claim_recent_trend_safe :
    (∀ (season_stats : Stats) (game_log : List Stats),
      (game_log = [] ∨ season_stats = [] ∨
        safe_float (Stats.getD season_stats "pts" (.num 0)) = 0) →
      compute_recent_trend season_stats game_log = 0) ∧
    (∀ (season_stats : Stats) (game_log : List Stats) (sp : ℚ),
      game_log ≠ [] → season_stats ≠ [] →
      safe_float (Stats.getD season_stats "pts" (.num 0)) = sp → sp ≠ 0 →
      compute_recent_trend season_stats game_log
        = pyRound1 (((game_log.map (fun g => safe_float (Stats.getD g "pts" (.num 0)))).sum
            / (game_log.length : ℚ) - sp) / sp * 100)) := by
  constructor
  · intro season_stats game_log h
    rw [compute_recent_trend]
    rcases h with h | h | h
    · simp [h]
    · simp [h]
    · rcases game_log with _ | ⟨g, gs⟩
      · simp
      · rcases season_stats with _ | ⟨kv, tl⟩
        · simp
        · simp [h]
  · intro season_stats game_log sp hlog hstats hsp hne
    rw [compute_recent_trend, ne_nil_isEmpty_eq_false hlog, ne_nil_isEmpty_eq_false hstats]
    simp only [Bool.false_eq_true, Bool.or_self, if_false, hsp, if_neg hne]

/-! ### C8 and C10: the sleeper classifier -/

theorem append3_ne_empty (pre mid post : String) (h : pre.data ≠ []) :
    pre ++ mid ++ post ≠ "" := by
  intro he
  apply h
  have hd := congrArg String.data he
  rw [String.data_append, String.data_append] at hd
  rcases List.append_eq_nil.mp hd with ⟨hd1, -⟩
  exact List.append_eq_nil.mp hd1 |>.1

/-- C8: `identify_sleeper` evaluates its rules in order with the first match
winning: whenever the trend rule's condition (trend ≥ 15 and value > 20)
holds together with a position-category rule's condition (frontcourt blocks
or backcourt steals), the returned reason is the trend reason, citing the
trend percentage rather than blocks or steals per game. -/
theorem claim_sleeper_rule_priority :
    ∀ (stats : Stats) (trend fantasy_value : ℚ) (position : String),
      trend ≥ 15 → fantasy_value > 20 →
      (((position = "C" ∨ position = "PF") ∧
          safe_float (Stats.getD stats "blk" (.num 0)) ≥ 2 ∧ trend ≥ 5) ∨
       ((position = "PG" ∨ position = "SG") ∧
          safe_float (Stats.getD stats "stl" (.num 0)) ≥ 9/5 ∧ trend ≥ 5)) →
      identify_sleeper stats trend fantasy_value position
        = some (true, "Trending +" ++ fmtF0 trend ++ "% over last 10 games") := by
  intro stats trend fantasy_value position h15 h20 _hposition
  unfold identify_sleeper
  rw [if_pos ⟨h15, h20⟩]

/-- C10: whenever `identify_sleeper` returns a result, the boolean flag and
the reason string agree: the flag is true exactly when the reason is
non-empty, and the not-a-sleeper result is exactly `(false, "")`. -/
theorem claim_sleeper_flag_reason_agree :
    ∀ (stats : Stats) (trend fantasy_value : ℚ) (position : String) (res : Bool × String),
      identify_sleeper stats trend fantasy_value position = some res →
      ((res.1 = true ↔ res.2 ≠ "") ∧ (res.1 = false → res = (false, ""))) := by
  intro stats trend fantasy_value position res h
  simp only [identify_sleeper] at h
  split_ifs at h with h1 h2 h3 h4
  · cases h
    exact ⟨⟨fun _ => append3_ne_empty _ _ _ (by decide), fun _ => rfl⟩, fun hf => by cases hf⟩
  · cases h
    exact ⟨⟨fun _ => append3_ne_empty _ _ _ (by decide), fun _ => rfl⟩, fun hf => by cases hf⟩
  · cases h
    exact ⟨⟨fun _ => append3_ne_empty _ _ _ (by decide), fun _ => rfl⟩, fun hf => by cases hf⟩
  · split at h
    next s heq =>
      split_ifs at h with h5
      · cases h
        exact ⟨⟨fun _ => append3_ne_empty _ _ _ (by decide), fun _ => rfl⟩, fun hf => by cases hf⟩
      · cases h
        exact ⟨⟨fun ht => Bool.noConfusion ht, fun hr => absurd rfl hr⟩, fun _ => rfl⟩
    next => cases h
  · cases h
    exact ⟨⟨fun ht => Bool.noConfusion ht, fun hr => absurd rfl hr⟩, fun _ => rfl⟩

/-- Witness for C8 at a concrete input on which both the trend rule and the
frontcourt-blocks rule hold. -/
theorem claim_sleeper_rule_priority_witness :
    identify_sleeper [("blk", .num 3)] 20 30 "C"
      = some (true, "Trending +" ++ fmtF0 20 ++ "% over last 10 games") :=
  claim_sleeper_rule_priority [("blk", .num 3)] 20 30 "C"
    (by norm_num) (by norm_num)
    (Or.inl ⟨Or.inl rfl, by with_unfolding_all decide, by norm_num⟩)

/-- Witness for C10 at a concrete not-a-sleeper input. -/
theorem claim_sleeper_flag_reason_agree_witness :
    ((false, "").1 = true ↔ ((false, "") : Bool × String).2 ≠ "") ∧
      (((false, "") : Bool × String).1 = false → ((false, "") : Bool × String) = (false, "")) :=
  claim_sleeper_flag_reason_agree [] 0 0 "SF" (false, "") (by with_unfolding_all rfl)

/-! ### C9: VOR for a position absent from the baseline mapping -/

/-- C9 as stated is false: with the position absent from the mapping the
baseline is indeed 0, but `compute_vor` still rounds, so a raw adjusted value
of 1.01 (reachable: raw value 0, no live bonus, trend 10.1 adds 1.01) comes
back as 1.0, not unchanged. -/
theorem claim_vor_unknown_position_cex :
    (([] : List (String × ℚ)).find? (fun kv => kv.1 == "X") = none) ∧
      compute_vor (101/100) "X" [] = 1 ∧ (1 : ℚ) ≠ 101/100 :=
  ⟨rfl, by with_unfolding_all rfl, by norm_num⟩

/-- C9 amended: for every position key absent from the replacement-baseline
mapping the baseline used is 0, so the computed VOR is the raw adjusted
fantasy value rounded to one decimal; in particular it equals the raw value
unchanged whenever that value is an exact multiple of 0.1. -/
theorem claim_vor_unknown_position_amended :
    ∀ (v : ℚ) (pos : String) (repl : List (String × ℚ)),
      repl.find? (fun kv => kv.1 == pos) = none →
      (compute_vor v pos repl = pyRound1 v ∧ ∀ n : ℤ, v = n / 10 → compute_vor v pos repl = v) := by
  intro v pos repl h
  have hbase : compute_vor v pos repl = pyRound1 v := by
    unfold compute_vor
    rw [h]
    simp
  refine ⟨hbase, ?_⟩
  rintro n rfl
  rw [hbase]
  unfold pyRound1 roundHalfEven
  have h10 : (n : ℚ) / 10 * 10 = (n : ℚ) := by
    field_simp
  rw [h10]
  rw [Int.floor_intCast]
  norm_num

/-- Witness for the amended C9 at the spec's own example: value 45, unknown
position, baseline mapping without that key. -/
theorem claim_vor_unknown_position_amended_witness :
    compute_vor 45 "UTIL" [("PG", 30)] = 45 :=
  (claim_vor_unknown_position_amended 45 "UTIL" [("PG", 30)] rfl).2 450 (by norm_num)

/-! ### Witnesses for the scoring-model claims -/

/-- Witness for C6 at the spec's example record. -/
theorem claim_nba_points_value_witness :
    compute_nba_points_value
      [("pts", .num 25), ("reb", .num 7), ("ast", .num 8), ("stl", .num (3/2)),
       ("blk", .num (1/2)), ("fg3m", .num 2), ("tov", .num 3)]
      = pyRound1 (25 * 1 + 7 * (6/5) + 8 * (3/2) + (3/2) * 3 + (1/2) * 3 + 2 * (1/2) + 3 * (-1)) :=
  claim_nba_points_value.1 _ 25 7 8 (3/2) (1/2) 2 3 rfl rfl rfl rfl rfl rfl rfl

/-- Witness for C4 at the spec's example record and a malformed average. -/
theorem claim_mlb_hitting_value_witness :
    compute_mlb_hitting_value
      [("runs", .num 100), ("hr", .num 40), ("rbi", .num 110), ("sb", .num 10),
       ("avg", .str ".300")]
      = some (pyRound1 (100 * 1 + 40 * 4 + 110 * 1 + 10 * 2 +
          (if pyParseAvg "250" (1/4) ".300" > 27/100 then
            (pyParseAvg "250" (1/4) ".300" - 27/100) * 1000 * 5 else 0))) ∧
    pyParseAvg "250" (1/4) "N/A" = 1/4 :=
  ⟨claim_mlb_hitting_value.1 _ 100 40 110 10 ".300" rfl rfl rfl rfl rfl (List.cons_ne_nil _ _),
   claim_mlb_hitting_value.2.2.1 "N/A" (by with_unfolding_all rfl)⟩

/-- Witness for C5 at the spec's penalty example. -/
theorem claim_mlb_pitching_value_witness :
    compute_mlb_pitching_value
      [("wins", .num 10), ("so", .num 150), ("saves", .num 0),
       ("era", .str "4.50"), ("whip", .str "1.40")]
      = pyRound1 (10 * 5 + 150 * 1 + 0 * 5
          - (if (9/2 : ℚ) > 7/2 then ((9/2 : ℚ) - 7/2) / (1/2) * 2 else 0)
          - (if (7/5 : ℚ) > 6/5 then ((7/5 : ℚ) - 6/5) / (1/10) * 3 else 0)) :=
  claim_mlb_pitching_value.1 _ 10 150 0 (9/2) (7/5) rfl rfl rfl
    (by with_unfolding_all rfl) (by with_unfolding_all rfl) (List.cons_ne_nil _ _)

/-- A concrete three-game log used by the C7 witness. -/
def gameLogEx : List Stats := [[("pts", .num 25)], [("pts", .num 27)], [("pts", .num 24)]]

/-- Witness for C7: a zero season average yields 0, and a real log yields the
trend formula. -/
theorem claim_recent_trend_safe_witness :
    compute_recent_trend [("pts", .num 0)] [[("pts", .num 10)]] = 0 ∧
    compute_recent_trend [("pts", .num 20)] gameLogEx
      = pyRound1 (((gameLogEx.map (fun g => safe_float (Stats.getD g "pts" (.num 0)))).sum
          / (gameLogEx.length : ℚ) - 20) / 20 * 100) :=
  ⟨claim_recent_trend_safe.1 _ _ (Or.inr (Or.inr rfl)),
   claim_recent_trend_safe.2 _ gameLogEx 20 (List.cons_ne_nil _ _) (List.cons_ne_nil _ _)
     rfl (by norm_num)⟩

/-! ### C2: the replacement baseline -/

theorem getLastD_mem_of_ne_nil {α : Type} (l : List α) (d : α) (h : l ≠ []) :
    l.getLastD d ∈ l := by
  induction l generalizing d with
  | nil => exact absurd rfl h
  | cons a t ih =>
    rw [List.getLastD_cons]
    cases t with
    | nil => simp [List.getLastD]
    | cons b t2 => exact List.mem_cons_of_mem a (ih a (List.cons_ne_nil _ _))

theorem getLastD_le_of_sorted_ge (l : List ℚ) (d : ℚ)
    (hp : l.Pairwise (fun a b : ℚ => b ≤ a)) : ∀ x ∈ l, l.getLastD d ≤ x := by
  induction l generalizing d with
  | nil => intro x hx; exact absurd hx (List.not_mem_nil x)
  | cons a t ih =>
    rw [List.getLastD_cons]
    rcases List.pairwise_cons.mp hp with ⟨ha, hp2⟩
    intro x hx
    rcases List.mem_cons.mp hx with rfl | hx2
    · cases t with
      | nil => simp [List.getLastD]
      | cons b t2 => exact ha _ (getLastD_mem_of_ne_nil _ x (List.cons_ne_nil _ _))
    · exact ih a hp2 x hx2

/-- C2: the replacement baseline for a position. The descending sort really is
descending (and a permutation of the observed values); with at least 12 values
the baseline is the arithmetic mean of the 8th- through 12th-highest values
(the slice has exactly 5 entries, so dividing its sum by 5 is its mean); with
3 to 11 values it is the minimum observed value (a member that is a lower
bound); with fewer than 3 values it is 0. -/
theorem claim_replacement_baseline (values : List ℚ) :
    ((values.mergeSort (fun a b => b ≤ a)).Pairwise (fun a b : ℚ => b ≤ a) ∧
      (values.mergeSort (fun a b => b ≤ a)).Perm values) ∧
    (12 ≤ values.length →
      (((values.mergeSort (fun a b => b ≤ a)).drop 7).take 5).length = 5 ∧
      replacement_baseline values
        = (((values.mergeSort (fun a b => b ≤ a)).drop 7).take 5).sum / 5) ∧
    (3 ≤ values.length → values.length < 12 →
      replacement_baseline values ∈ values ∧
      ∀ x ∈ values, replacement_baseline values ≤ x) ∧
    (values.length < 3 → replacement_baseline values = 0) := by
  have htrans : ∀ a b c : ℚ, (decide (b ≤ a)) = true → (decide (c ≤ b)) = true →
      (decide (c ≤ a)) = true := by
    intro a b c h1 h2
    simp only [decide_eq_true_eq] at h1 h2 ⊢
    exact le_trans h2 h1
  have htotal : ∀ a b : ℚ, ((decide (b ≤ a)) || (decide (a ≤ b))) = true := by
    intro a b
    simpa using le_total b a
  have hsorted : (values.mergeSort (fun a b => b ≤ a)).Pairwise (fun a b : ℚ => b ≤ a) :=
    (List.sorted_mergeSort htrans htotal values).imp (fun h => by simpa using h)
  have hperm : (values.mergeSort (fun a b => b ≤ a)).Perm values :=
    List.mergeSort_perm values _
  have hlen : (values.mergeSort (fun a b => b ≤ a)).length = values.length :=
    List.length_mergeSort values
  refine ⟨⟨hsorted, hperm⟩, ?_, ?_, ?_⟩
  · intro h12
    constructor
    · simp only [List.length_take, List.length_drop, hlen]
      omega
    · simp only [replacement_baseline]
      rw [if_pos (by rw [hlen]; omega)]
  · intro h3 h12
    have hnil : values.mergeSort (fun a b => b ≤ a) ≠ [] := by
      intro hn
      rw [← List.length_eq_zero, hlen] at hn
      omega
    have hbase : replacement_baseline values
        = (values.mergeSort (fun a b => b ≤ a)).getLastD 0 := by
      simp only [replacement_baseline]
      rw [if_neg (by rw [hlen]; omega), if_pos (by rw [hlen]; omega)]
    rw [hbase]
    constructor
    · exact hperm.mem_iff.mp (getLastD_mem_of_ne_nil _ 0 hnil)
    · intro x hx
      exact getLastD_le_of_sorted_ge _ 0 hsorted x (hperm.mem_iff.mpr hx)
  · intro hlt
    simp only [replacement_baseline]
    rw [if_neg (by rw [hlen]; omega), if_neg (by rw [hlen]; omega)]

/-- Witness for C2 at concrete pools of sizes 12, 3 and 2. -/
theorem claim_replacement_baseline_witness :
    replacement_baseline [1, 2, 3, 4, 5, 6, 7, 8, 9, 10, 11, 12]
      = ((([1, 2, 3, 4, 5, 6, 7, 8, 9, 10, 11, 12].mergeSort
          (fun a b => b ≤ a)).drop 7).take 5).sum / 5 ∧
    replacement_baseline [5, 2, 9] ∈ ([5, 2, 9] : List ℚ) ∧
    replacement_baseline [1, 2] = 0 :=
  ⟨((claim_replacement_baseline _).2.1 (by decide)).2,
   ((claim_replacement_baseline _).2.2.1 (by decide) (by decide)).1,
   (claim_replacement_baseline _).2.2.2 (by decide)⟩

/-! ### C1: the final board is the stable descending sort by VOR -/

theorem vorLe_trans : ∀ a b c : RankedPlayer,
    (decide (b.vor ≤ a.vor)) = true → (decide (c.vor ≤ b.vor)) = true →
    (decide (c.vor ≤ a.vor)) = true := by
  intro a b c h1 h2
  simp only [decide_eq_true_eq] at h1 h2 ⊢
  exact le_trans h2 h1

theorem vorLe_total : ∀ a b : RankedPlayer,
    ((decide (b.vor ≤ a.vor)) || (decide (a.vor ≤ b.vor))) = true := by
  intro a b
  simpa using le_total b.vor a.vor

theorem assignTopPick_pairwise {l : List RankedPlayer}
    (h : l.Pairwise (fun a b => b.vor ≤ a.vor)) :
    (assignTopPick l).Pairwise (fun a b => b.vor ≤ a.vor) := by
  cases l with
  | nil => simp [assignTopPick]
  | cons top rest =>
    rw [assignTopPick]
    split_ifs with hrec
    · rcases List.pairwise_cons.mp h with ⟨ha, hp⟩
      exact List.pairwise_cons.mpr ⟨fun b hb => ha b hb, hp⟩
    · exact h

theorem assignTopPick_filter_map_name (l : List RankedPlayer) (q : ℚ) :
    (((assignTopPick l).filter (fun p => decide (p.vor = q))).map RankedPlayer.name)
      = ((l.filter (fun p => decide (p.vor = q))).map RankedPlayer.name) := by
  cases l with
  | nil => rfl
  | cons top rest =>
    rw [assignTopPick]
    split_ifs with hrec
    · simp only [List.filter_cons]
      by_cases hq : top.vor = q
      · simp [hq]
      · simp [hq]
    · rfl

theorem sortByVorDesc_filter (l : List RankedPlayer) (q : ℚ) :
    (sortByVorDesc l).filter (fun p => decide (p.vor = q))
      = l.filter (fun p => decide (p.vor = q)) := by
  have hc : (l.filter (fun p => decide (p.vor = q))).Pairwise
      (fun a b : RankedPlayer => (decide (b.vor ≤ a.vor)) = true) := by
    apply List.pairwise_of_forall_mem_list
    intro a ha b hb
    have ha2 : a.vor = q := by simpa using List.of_mem_filter ha
    have hb2 : b.vor = q := by simpa using List.of_mem_filter hb
    simp [ha2, hb2]
  have hsub : (l.filter (fun p => decide (p.vor = q))).Sublist
      (l.mergeSort (fun a b => b.vor ≤ a.vor)) :=
    List.sublist_mergeSort vorLe_trans vorLe_total hc (List.filter_sublist l)
  have hsub2 : (l.filter (fun p => decide (p.vor = q))).Sublist
      ((l.mergeSort (fun a b => b.vor ≤ a.vor)).filter (fun p => decide (p.vor = q))) := by
    have h2 := hsub.filter (fun p => decide (p.vor = q))
    have hself : (l.filter (fun p => decide (p.vor = q))).filter
        (fun p => decide (p.vor = q)) = l.filter (fun p => decide (p.vor = q)) := by
      apply List.filter_eq_self.mpr
      intro a ha
      exact @List.of_mem_filter RankedPlayer (fun rp => decide (rp.vor = q)) a l ha
    rwa [hself] at h2
  have hperm : ((l.mergeSort (fun a b => b.vor ≤ a.vor)).filter
      (fun p => decide (p.vor = q))).Perm (l.filter (fun p => decide (p.vor = q))) :=
    (List.mergeSort_perm l _).filter _
  rw [sortByVorDesc]
  exact (hsub2.eq_of_length hperm.length_eq.symm).symm

/-- C1: whenever `build_draft_board` returns a board, the board is sorted by
VOR in non-increasing order (every later entry has VOR at most every earlier
entry's, in particular adjacent pairs), and for every VOR value the entries
carrying that value appear in exactly the pool-iteration (insertion) order in
which they were built, i.e. their order in the pre-sort list. -/
theorem claim_board_sorted_by_vor (env : DraftEnv) (sport scoring_format : String)
    (drafted_names roster : List String) (pre board : List RankedPlayer) (q : ℚ)
    (hpre : preSortBoard env sport scoring_format drafted_names roster = some pre)
    (hb : build_draft_board env sport scoring_format drafted_names roster = some board) :
    board.Pairwise (fun a b => b.vor ≤ a.vor) ∧
    ((board.filter (fun p => decide (p.vor = q))).map RankedPlayer.name
      = (pre.filter (fun p => decide (p.vor = q))).map RankedPlayer.name) := by
  have hboard : board = assignTopPick (sortByVorDesc pre) := by
    rw [build_draft_board, hpre] at hb
    exact (Option.some.injEq _ _).mp hb |>.symm
  subst hboard
  constructor
  · apply assignTopPick_pairwise
    rw [sortByVorDesc]
    exact (List.sorted_mergeSort vorLe_trans vorLe_total pre).imp
      (fun h => of_decide_eq_true h)
  · rw [assignTopPick_filter_map_name, sortByVorDesc_filter]

/-! ### C3: the positional-need bonus is applied unconditionally -/

theorem finishCandidate_posKey {env : DraftEnv} {player_name : String} {stats : Stats}
    {value trend : ℚ} {entry : LoopEntry}
    (h : finishCandidate env player_name stats value trend = some entry) :
    posKey? entry.rp.position = some entry.pos_key := by
  simp only [finishCandidate] at h
  split at h
  · exact Option.noConfusion h
  next pos_key hpk =>
    split at h
    · exact Option.noConfusion h
    next sl hsl =>
      cases h
      exact hpk

theorem mlbFinish_posKey {env : DraftEnv} {player_name : String} {stats : Stats}
    {value : ℚ} {entry : LoopEntry}
    (h : mlbFinish env player_name stats value = some entry) :
    posKey? entry.rp.position = some entry.pos_key := by
  simp only [mlbFinish] at h
  exact finishCandidate_posKey h

theorem processCandidate_posKey {env : DraftEnv} {sport scoring_format player_name : String}
    {entry : LoopEntry}
    (h : processCandidate env sport scoring_format player_name = some (some entry)) :
    posKey? entry.rp.position = some entry.pos_key := by
  unfold processCandidate at h
  split_ifs at h
  · simp only [processNBA, ite_self] at h
    split_ifs at h
    · simp at h
    · rw [Option.map_eq_some'] at h
      obtain ⟨a, ha, hae⟩ := h
      cases hae
      exact finishCandidate_posKey ha
  · simp only [processMLB] at h
    split_ifs at h
    · simp at h
    · rw [Option.map_eq_some'] at h
      obtain ⟨a, ha, hae⟩ := h
      cases hae
      exact mlbFinish_posKey ha
    · split at h
      next hval => exact Option.noConfusion h
      next value hval =>
        rw [Option.map_eq_some'] at h
        obtain ⟨a, ha, hae⟩ := h
        cases hae
        exact mlbFinish_posKey ha
  · simp at h

theorem valueCandidates_posKey {env : DraftEnv} {sport scoring_format : String} :
    ∀ {names : List String} {vs : List LoopEntry},
      valueCandidates env sport scoring_format names = some vs →
      ∀ v ∈ vs, posKey? v.rp.position = some v.pos_key := by
  intro names
  induction names with
  | nil =>
    intro vs h v hv
    rw [valueCandidates] at h
    cases h
    exact absurd hv (List.not_mem_nil v)
  | cons n rest ih =>
    intro vs h v hv
    rw [valueCandidates] at h
    split at h
    · exact Option.noConfusion h
    · exact ih h v hv
    next entry heq =>
      rw [Option.map_eq_some'] at h
      obtain ⟨vs2, hvs2, hcons⟩ := h
      subst hcons
      rcases List.mem_cons.mp hv with rfl | hv2
      · exact processCandidate_posKey heq
      · exact ih hvs2 v hv2

/-- C3: `_count_roster_positions` is a stub that always reports no positions
held, so the positional-need pass gives every candidate the +2.0 VOR bonus
and the "fills (position) need" recommendation tag, and consequently every
entry of every returned board carries that tag for its own position key. -/
theorem claim_need_bonus_unconditional :
    (∀ (roster_names : List String) (sport : String),
        count_roster_positions roster_names sport = []) ∧
    (∀ (roster : List String) (sport : String) (vs : List LoopEntry),
        applyNeedBonus roster sport vs
          = vs.map (fun v =>
              { v with rp :=
                  { v.rp with
                    vor := v.rp.vor + 2
                    recommendation := "fills " ++ v.pos_key ++ " need" } })) ∧
    (∀ (env : DraftEnv) (sport scoring_format : String)
        (drafted_names roster : List String) (board : List RankedPlayer)
        (rp : RankedPlayer),
        build_draft_board env sport scoring_format drafted_names roster = some board →
        rp ∈ board →
        rp.recommendation = "fills " ++ ((posKey? rp.position).getD "UTIL") ++ " need") := by
  have hbonus : ∀ (roster : List String) (sport : String) (vs : List LoopEntry),
      applyNeedBonus roster sport vs
        = vs.map (fun v =>
            { v with rp :=
                { v.rp with
                  vor := v.rp.vor + 2
                  recommendation := "fills " ++ v.pos_key ++ " need" } }) := by
    intro roster sport vs
    simp [applyNeedBonus, count_roster_positions]
  refine ⟨fun _ _ => rfl, hbonus, ?_⟩
  intro env sport scoring_format drafted_names roster board rp hb hmem
  rw [build_draft_board] at hb
  obtain ⟨pre, hpre, hb2⟩ := Option.map_eq_some'.mp hb
  rw [preSortBoard] at hpre
  obtain ⟨vs, hvs, hpre2⟩ := Option.map_eq_some'.mp hpre
  have hA : ∀ x ∈ pre,
      x.recommendation = "fills " ++ ((posKey? x.position).getD "UTIL") ++ " need" := by
    intro x hx
    rw [← hpre2, hbonus] at hx
    simp only [applyVOR, List.map_map, List.mem_map, Function.comp] at hx
    obtain ⟨v, hv, rfl⟩ := hx
    have hk := valueCandidates_posKey hvs v hv
    simp [hk]
  have hArec : ∀ x ∈ pre, x.recommendation ≠ "" := by
    intro x hx
    rw [hA x hx]
    exact append3_ne_empty _ _ _ (by decide)
  have hsorted_mem : ∀ x ∈ sortByVorDesc pre, x ∈ pre := by
    intro x hx
    rw [sortByVorDesc] at hx
    exact List.mem_mergeSort.mp hx
  have htop_eq : assignTopPick (sortByVorDesc pre) = sortByVorDesc pre := by
    cases hcase : sortByVorDesc pre with
    | nil => rfl
    | cons top rest =>
      rw [assignTopPick, if_neg]
      apply hArec
      apply hsorted_mem
      rw [hcase]
      exact List.mem_cons_self top rest
  rw [htop_eq] at hb2
  subst hb2
  exact hA rp (hsorted_mem rp hmem)

/-! ### A concrete board build used by the C1 and C3 witnesses -/

/-- A season-stats record returned for every pool player by the demo oracle. -/
def statsDemo : Stats := [("player_id", .num 0), ("position", .str "C"), ("pts", .num 20)]

/-- A concrete environment: every NBA lookup succeeds with `statsDemo`, MLB
lookups fail, no live context. -/
def envDemo : DraftEnv :=
  { get_nba_player_season_stats := fun _ => statsDemo
    get_nba_player_game_log := fun _ _ => []
    get_mlb_player_stats := fun _ _ => []
    get_mlb_spring_training_stats := fun _ => []
    hot_players := [] }

/-- Everyone but one player already drafted, leaving a one-entry board. -/
def draftedDemo : List String := NBA_DEFAULT_POOL.filter (fun n => n != "Nikola Jokic")

/-- The pre-sort list of the demo build. -/
def preDemo : List RankedPlayer :=
  (preSortBoard envDemo "nba" "points" draftedDemo []).getD []

/-- The final board of the demo build. -/
def boardDemo : List RankedPlayer :=
  (build_draft_board envDemo "nba" "points" draftedDemo []).getD []

/-- A default `RankedPlayer`, used only as the `headD` fallback. -/
def rpDefault : RankedPlayer :=
  { name := "", team := .str "", position := .str "", fantasy_value := 0, vor := 0
    season_stats := [], recent_trend := 0, live_note := .str "", is_sleeper := false
    sleeper_reason := "", recommendation := "" }

/-- Witness for C1 at the demo build. -/
theorem claim_board_sorted_by_vor_witness :
    boardDemo.Pairwise (fun a b => b.vor ≤ a.vor) ∧
    ((boardDemo.filter (fun p => decide (p.vor = 22))).map RankedPlayer.name
      = (preDemo.filter (fun p => decide (p.vor = 22))).map RankedPlayer.name) :=
  claim_board_sorted_by_vor envDemo "nba" "points" draftedDemo [] preDemo boardDemo 22
    (by with_unfolding_all rfl) (by with_unfolding_all rfl)

/-- Witness for C3 at the demo build: the board's top entry carries the
fills-need tag for its own position key. -/
theorem claim_need_bonus_unconditional_witness :
    (boardDemo.headD rpDefault).recommendation
      = "fills " ++ ((posKey? (boardDemo.headD rpDefault).position).getD "UTIL") ++ " need" := by
  have hb : build_draft_board envDemo "nba" "points" draftedDemo [] = some boardDemo := by
    with_unfolding_all rfl
  have hcons : boardDemo = boardDemo.headD rpDefault :: boardDemo.tail := by
    with_unfolding_all rfl
  have hmem : boardDemo.headD rpDefault ∈ boardDemo := by
    nth_rewrite 1 [hcons]
    exact List.mem_cons_self _ _
  exact claim_need_bonus_unconditional.2.2 envDemo "nba" "points" draftedDemo []
    boardDemo (boardDemo.headD rpDefault) hb hmem
